import Mathlib

/-!
Shallow embedding of the monthly-summary plugin
(`MonthlyReportGenerator` in the repository's source) and proofs about it.

Conventions of the embedding:
* JavaScript numbers are modelled as rationals (`ℚ`); the non-finite value
  `NaN` is modelled by `Option ℚ` results (`none` = NaN) of the host
  conversion `Number(...)`.  Infinities are not modelled: the host table
  delivers finite numeric cell values.
* A host field read (`field.getValue(recordId)`) either throws (`.err`) or
  yields a raw value (`.ok v`).
* Calendar computations (`Date#getMonth`, `Date#getFullYear`) are modelled
  in UTC via the standard civil-from-days algorithm; the source uses the
  local timezone, which only shifts every timestamp by a fixed offset and
  is irrelevant to the claims proved here.
* `Number(...)` on strings is modelled for decimal literals (optional sign,
  digits, optional fraction, surrounding whitespace); hexadecimal,
  exponent and Infinity literals are not modelled.  `new Date(...)` on
  strings is modelled as unparseable: the out-date field is a DateTime
  field whose host values are numeric timestamps.
-/

namespace MonthlyReport

/-- A raw cell value as delivered by the host SDK. -/
inductive RawValue where
  | null
  | undefined
  | nan
  | num (q : ℚ)
  | str (s : String)
deriving DecidableEq

/-- Result of one host field read: the call either throws or returns a value. -/
inductive FieldRead where
  | err
  | ok (v : RawValue)
deriving DecidableEq

/-- JavaScript falsiness (`!value`): `null`, `undefined`, `NaN`, `0` and the
empty string are falsy. -/
def jsFalsy : RawValue → Bool
  | .null => true
  | .undefined => true
  | .nan => true
  | .num q => decide (q = 0)
  | .str s => decide (s = "")

/-- Whitespace recognized when converting a string to a number. -/
def isWs (c : Char) : Bool :=
  c = ' ' || c = '\t' || c = '\n' || c = '\r'

/-- Trim leading and trailing whitespace from a character list. -/
def trimWs (l : List Char) : List Char :=
  ((l.dropWhile isWs).reverse.dropWhile isWs).reverse

/-- Numeric value of a digit list, most significant digit first. -/
def digitsVal (l : List Char) : ℕ :=
  l.foldl (fun a c => a * 10 + (c.toNat - 48)) 0

/-- Parse an unsigned decimal literal (digits, optionally a point and more
digits; at least one digit overall), as JavaScript `Number` accepts. -/
def parseUnsignedDec (l : List Char) : Option ℚ :=
  let intPart := l.takeWhile Char.isDigit
  let rest := l.dropWhile Char.isDigit
  match rest with
  | [] => if intPart.isEmpty then none else some (digitsVal intPart : ℚ)
  | '.' :: frac =>
      if frac.all Char.isDigit && !(intPart.isEmpty && frac.isEmpty) then
        some ((digitsVal intPart : ℚ) + (digitsVal frac : ℚ) / (10 : ℚ) ^ frac.length)
      else none
  | _ => none

/-- Model of JavaScript `Number(s)` for a string `s` (decimal literals only;
`none` stands for NaN).  The empty / all-whitespace string converts to 0. -/
def jsNumberOfString (s : String) : Option ℚ :=
  match trimWs s.data with
  | [] => some 0
  | '+' :: rest => parseUnsignedDec rest
  | '-' :: rest => (parseUnsignedDec rest).map (fun q => -q)
  | l => parseUnsignedDec l

/-- Model of JavaScript `Number(value)`; `none` stands for NaN. -/
def jsNumber : RawValue → Option ℚ
  | .null => some 0
  | .undefined => none
  | .nan => none
  | .num q => some q
  | .str s => jsNumberOfString s

/-- Model of JavaScript `String(value)` for the values that can occur as a
category cell (category cells are single-select labels, i.e. strings). -/
def jsString : RawValue → String
  | .null => "null"
  | .undefined => "undefined"
  | .nan => "NaN"
  | .num q => toString q
  | .str s => s

/-- `safeGetNumberValue` (source lines 305-315): a throwing read is absorbed
to 0; `null`/`undefined` map to 0; otherwise `Number(value)` is taken and a
NaN result maps to 0. -/
def safeGetNumberValue : FieldRead → ℚ
  | .err => 0
  | .ok .null => 0
  | .ok .undefined => 0
  | .ok v =>
      match jsNumber v with
      | none => 0
      | some q => q

/-- Civil calendar date (year, month, day) of a day count relative to
1970-01-01, by the standard era-based algorithm. -/
def civilFromDays (z0 : ℤ) : ℤ × ℤ × ℤ :=
  let z := z0 + 719468
  let era := Int.fdiv z 146097
  let doe := z - era * 146097
  let yoe := Int.fdiv (doe - Int.fdiv doe 1460 + Int.fdiv doe 36524 - Int.fdiv doe 146096) 365
  let y := yoe + era * 400
  let doy := doe - (365 * yoe + Int.fdiv yoe 4 - Int.fdiv yoe 100)
  let mp := Int.fdiv (5 * doy + 2) 153
  let d := doy - Int.fdiv (153 * mp + 2) 5 + 1
  let m := if mp < 10 then mp + 3 else mp - 9
  (if m ≤ 2 then y + 1 else y, m, d)

/-- Calendar month (1-12) of a millisecond timestamp (`getMonth() + 1`). -/
def monthOfTimestamp (t : ℤ) : ℤ :=
  (civilFromDays (Int.fdiv t 86400000)).2.1

/-- Calendar year of a millisecond timestamp (`getFullYear()`). -/
def yearOfTimestamp (t : ℤ) : ℤ :=
  (civilFromDays (Int.fdiv t 86400000)).1

/-- Model of `new Date(value)` followed by the `isNaN(outDate.getTime())`
validity check: a finite numeric value within the ECMAScript time range
yields its (truncated) millisecond timestamp, everything else is an invalid
date. -/
def parseDate : RawValue → Option ℤ
  | .num q =>
      if -8640000000000000 ≤ q ∧ q ≤ 8640000000000000 then
        some (Int.tdiv q.num (q.den : ℤ))
      else none
  | _ => none

/-- One row of the source table, as seen through the seven resolved fields.
`id` is the opaque record identifier; each other component is the outcome of
the corresponding `getValue` call. -/
structure SourceRecord where
  id : String
  outDate : FieldRead
  category : FieldRead
  shares : FieldRead
  preparationFee : FieldRead
  rewardDeduction : FieldRead
  cancelFee : FieldRead
  urgentFee : FieldRead
deriving DecidableEq

/-- The per-category accumulator (source lines 234-241). -/
structure GroupAcc where
  count : ℕ
  shares : ℚ
  preparationFee : ℚ
  rewardDeduction : ℚ
  cancelFee : ℚ
  urgentFee : ℚ
deriving DecidableEq

/-- The zero accumulator a key starts from (source lines 290-299). -/
def GroupAcc.zero : GroupAcc :=
  { count := 0, shares := 0, preparationFee := 0, rewardDeduction := 0
    cancelFee := 0, urgentFee := 0 }

/-- Accumulate one matched record into a group (source lines 301-331):
`count` increments by one and the five sums grow by the safe numeric value
of the corresponding field. -/
def accumulate (g : GroupAcc) (r : SourceRecord) : GroupAcc :=
  { count := g.count + 1
    shares := g.shares + safeGetNumberValue r.shares
    preparationFee := g.preparationFee + safeGetNumberValue r.preparationFee
    rewardDeduction := g.rewardDeduction + safeGetNumberValue r.rewardDeduction
    cancelFee := g.cancelFee + safeGetNumberValue r.cancelFee
    urgentFee := g.urgentFee + safeGetNumberValue r.urgentFee }

/-- Insert-or-update on the string-keyed grouped data, preserving the
first-seen insertion order of keys (a JavaScript object with string keys). -/
def addToGroups : List (String × GroupAcc) → String → SourceRecord →
    List (String × GroupAcc)
  | [], key, r => [(key, accumulate GroupAcc.zero r)]
  | (k, g) :: rest, key, r =>
      if k = key then (k, accumulate g r) :: rest
      else (k, g) :: addToGroups rest key r

/-- Effect of one loop iteration of `getSourceData` (source lines 247-337) on
the grouped data: skip on a throwing or falsy out-date read, on an
unparseable date, on a month mismatch and on a throwing or falsy category
read; otherwise accumulate under the category's string key. -/
def groupStep (month : ℤ) (acc : List (String × GroupAcc)) (r : SourceRecord) :
    List (String × GroupAcc) :=
  match r.outDate with
  | .err => acc
  | .ok dv =>
    if jsFalsy dv then acc
    else
      match parseDate dv with
      | none => acc
      | some t =>
        if monthOfTimestamp t ≠ month then acc
        else
          match r.category with
          | .err => acc
          | .ok cv =>
            if jsFalsy cv then acc
            else addToGroups acc (jsString cv) r

/-- Diagnostic for a record whose processing threw (outer catch, line 334). -/
def readErrorDiag (rid : String) : String :=
  "处理记录 " ++ rid ++ " 时发生错误"

/-- Diagnostic for an invalid date (source line 262). -/
def invalidDateDiag (rid : String) : String :=
  "记录 " ++ rid ++ " 的日期格式无效"

/-- Diagnostic for a missing category (source line 282). -/
def noCategoryDiag (rid : String) : String :=
  "记录 " ++ rid ++ " 没有产品类别，已跳过"

/-- Diagnostic for a throwing numeric field read (source line 312). -/
def numericReadDiag : String :=
  "获取字段值失败"

/-- Whether a field read threw. -/
def FieldRead.isErr : FieldRead → Bool
  | .err => true
  | .ok _ => false

/-- Diagnostics produced while accumulating a matched record: one warning per
throwing numeric field read, absorbed by `safeGetNumberValue`. -/
def numericDiags (r : SourceRecord) : List String :=
  (([r.shares, r.preparationFee, r.rewardDeduction, r.cancelFee,
     r.urgentFee].filter FieldRead.isErr).map (fun _ => numericReadDiag))

/-- Diagnostics produced by one loop iteration of `getSourceData`; follows
the same case analysis as `groupStep` and depends only on the record and the
requested month. -/
def recordDiags (month : ℤ) (r : SourceRecord) : List String :=
  match r.outDate with
  | .err => [readErrorDiag r.id]
  | .ok dv =>
    if jsFalsy dv then []
    else
      match parseDate dv with
      | none => [invalidDateDiag r.id]
      | some t =>
        if monthOfTimestamp t ≠ month then []
        else
          match r.category with
          | .err => [readErrorDiag r.id]
          | .ok cv =>
            if jsFalsy cv then [noCategoryDiag r.id]
            else numericDiags r

/-- One loop iteration: grouped-data effect together with diagnostics. -/
def processRecord (month : ℤ) (st : List (String × GroupAcc) × List String)
    (r : SourceRecord) : List (String × GroupAcc) × List String :=
  (groupStep month st.1 r, st.2 ++ recordDiags month r)

/-- The whole record loop of `getSourceData`. -/
def aggregateRecords (month : ℤ) (rs : List SourceRecord) :
    List (String × GroupAcc) × List String :=
  rs.foldl (processRecord month) ([], [])

/-- Field metadata as listed by `getFieldMetaList`: identifier and display
name, in listing order. -/
structure FieldMeta where
  id : String
  name : String
deriving DecidableEq

/-- `fields.find(field => field.name === name)?.id`: identifier of the first
field with the exact display name, if any. -/
def findFieldId (fields : List FieldMeta) (name : String) : Option String :=
  (fields.find? (fun f => f.name == name)).map (fun f => f.id)

/-- JavaScript falsiness of a resolved id (`!fieldId`): absent or empty. -/
def idFalsy : Option String → Bool
  | none => true
  | some s => s == ""

/-- Field resolution as performed on both tables (source lines 193-214 and
363-384): look up every role's display name, collect every name whose lookup
is falsy, and fail with one message naming them all; otherwise return the
role-to-id binding in role order. -/
def resolveFields (pfx : String) (fields : List FieldMeta) (names : List String) :
    Except String (List (String × String)) :=
  let resolved := names.map (fun n => (n, findFieldId fields n))
  let missing := (resolved.filter (fun p => idFalsy p.2)).map Prod.fst
  if missing.isEmpty then
    .ok (resolved.map (fun p => (p.1, p.2.getD "")))
  else
    .error (pfx ++ String.intercalate ", " missing)

/-- The seven source-table display names, in the order the source resolves
them (`SOURCE_FIELD_NAMES`, lines 18-26 and 194-210). -/
def sourceRoleNames : List String :=
  ["产品类别", "申请出库日期", "份数", "制备费",
   "出库订单（多单）奖励扣减", "制剂取消收取费用", "制剂加急/非正常出库时间收取费用"]

/-- The seven destination-table display names, in the order the source
resolves them (`TARGET_FIELD_NAMES`, lines 29-37 and 364-380). -/
def targetRoleNames : List String :=
  ["项目", "人数", "份数", "制备费",
   "出库订单奖励扣减", "制剂取消收取费用", "制剂加急/非正常出库时间收取费用"]

/-- Error-message prefix of the source-side missing-field error (line 213). -/
def srcMissingPfx : String := "源表中缺少以下必要的字段: "

/-- Error-message prefix of the destination-side missing-field error
(line 383). -/
def tgtMissingPfx : String := "新表字段创建失败，缺少字段: "

/-- Error for a source table with no fields (line 190). -/
def noFieldsMsg : String := "源表中没有找到任何字段"

/-- Error for a source table with no records (line 228). -/
def noRecordsMsg : String := "源表中没有找到任何记录"

/-- `getSourceData` (source lines 185-350): check the field list, resolve the
seven source roles, check the record list, then run the aggregation loop.
The loop itself never fails; per-record problems only skip and log. -/
def getSourceData (fields : List FieldMeta) (recordIds : List String)
    (readRecord : String → SourceRecord) (month : ℤ) :
    Except String (List (String × GroupAcc) × List String) :=
  if fields.isEmpty then .error noFieldsMsg
  else
    match resolveFields srcMissingPfx fields sourceRoleNames with
    | .error e => .error e
    | .ok _ =>
      if recordIds.isEmpty then .error noRecordsMsg
      else .ok (aggregateRecords month (recordIds.map readRecord))

/-- JavaScript `Math.round`: round half toward positive infinity. -/
def jsRound (q : ℚ) : ℤ := ⌊q + 1 / 2⌋

/-- `Math.round(value * 100) / 100` (source lines 443-455). -/
def round2 (q : ℚ) : ℚ := (jsRound (q * 100) : ℚ) / 100

/-- The seven cell values of one written summary row. -/
structure RowFields where
  project : String
  personCount : ℕ
  shares : ℚ
  preparationFee : ℚ
  rewardDeduction : ℚ
  cancelFee : ℚ
  urgentFee : ℚ
deriving DecidableEq

/-- Row object built on the bulk-insert path (source lines 399-417): the raw
accumulated sums, unrounded. -/
def bulkRowFields (cat : String) (d : GroupAcc) : RowFields :=
  { project := cat, personCount := d.count, shares := d.shares
    preparationFee := d.preparationFee, rewardDeduction := d.rewardDeduction
    cancelFee := d.cancelFee, urgentFee := d.urgentFee }

/-- Cell values set on the per-row fallback path (source lines 434-455): the
five sums rounded to two decimals, the count unrounded. -/
def perRowFields (cat : String) (d : GroupAcc) : RowFields :=
  { project := cat, personCount := d.count, shares := round2 d.shares
    preparationFee := round2 d.preparationFee
    rewardDeduction := round2 d.rewardDeduction
    cancelFee := round2 d.cancelFee, urgentFee := round2 d.urgentFee }

/-- Outcome of one group on the write path: persisted as a row, or logged as
a failed write. -/
inductive RowOutcome where
  | written (cat : String) (fields : RowFields)
  | failed (cat : String)
deriving DecidableEq

/-- The category a row outcome belongs to. -/
def outcomeCat : RowOutcome → String
  | .written c _ => c
  | .failed c => c

/-- Whether a row outcome is a successful write. -/
def isWritten : RowOutcome → Bool
  | .written _ _ => true
  | .failed _ => false

/-- What the writer reports on success: the per-group outcomes in input
order, which path was used, and whether a partial-success warning was
logged. -/
structure WriteReport where
  outcomes : List RowOutcome
  usedBulk : Bool
  partialWarning : Bool
deriving DecidableEq

/-- Host behaviour the writer depends on: whether the bulk `addRecords` call
succeeds, and whether the per-row insertion of a given category succeeds. -/
structure WriteHost where
  bulkOk : Bool
  rowOk : String → Bool

/-- Error when no row at all could be written (source line 466). -/
def zeroWrittenMsg : String := "没有成功写入任何记录"

/-- The write loop of `writeDataToNewTable` (source lines 397-469): try the
bulk path when there is at least one row and return on its success;
otherwise insert per row, logging and continuing on failure; fail only when
no row succeeded, and warn on partial success. -/
def writeRows (h : WriteHost) (groups : List (String × GroupAcc)) :
    Except String WriteReport :=
  if h.bulkOk ∧ 0 < groups.length then
    .ok { outcomes := groups.map (fun p => .written p.1 (bulkRowFields p.1 p.2))
          usedBulk := true, partialWarning := false }
  else
    let outcomes := groups.map (fun p =>
      if h.rowOk p.1 then RowOutcome.written p.1 (perRowFields p.1 p.2)
      else RowOutcome.failed p.1)
    let succ := outcomes.countP isWritten
    if succ = 0 then .error zeroWrittenMsg
    else
      .ok { outcomes := outcomes, usedBulk := false
            partialWarning := decide (succ < groups.length) }

/-- Error for a destination table with no fields (line 360). -/
def noNewFieldsMsg : String := "新表中没有找到任何字段"

/-- `writeDataToNewTable` (source lines 355-478): check the destination field
list, resolve the seven target roles, then run the write loop. -/
def writeDataToNewTable (destFields : List FieldMeta) (h : WriteHost)
    (groups : List (String × GroupAcc)) : Except String WriteReport :=
  if destFields.isEmpty then .error noNewFieldsMsg
  else
    match resolveFields tgtMissingPfx destFields targetRoleNames with
    | .error e => .error e
    | .ok _ => writeRows h groups

/-- Name of the generated table (source lines 61-64): current year and the
requested month. -/
def newTableName (year month : ℤ) : String :=
  toString year ++ "年" ++ toString month ++ "月支付细胞工程制剂制备费"

/-- Error for an empty source-table id (line 46). -/
def srcIdEmptyMsg : String := "源表ID不能为空"

/-- Error for a month outside 1-12 (line 50). -/
def monthRangeMsg : String := "月份必须在1-12之间"

/-- Error when the source table cannot be found (line 57). -/
def tableNotFoundMsg (sid : String) : String :=
  "未找到ID为 " ++ sid ++ " 的表格"

/-- Error when table creation returns no id (line 75). -/
def addTableFailMsg : String := "创建新表失败"

/-- Error when the new table cannot be re-opened (line 81). -/
def newTableAccessMsg (tid : String) : String :=
  "无法访问新创建的表格: " ++ tid

/-- Error when field creation fails (line 178). -/
def createFieldsFailMsg : String := "创建字段失败，请检查字段配置"

/-- Error when zero groups matched the requested month (line 94). -/
def noDataMsg (month : ℤ) : String :=
  "未找到" ++ toString month ++ "月的数据，请确认原表中存在该月份的记录"

/-- Everything the orchestrator obtains from the host platform during one
run. -/
structure Host where
  sourceTableExists : Bool
  addTableResult : Option String
  newTableAccessible : Bool
  createFieldsOk : Bool
  sourceFields : List FieldMeta
  recordIds : List String
  readRecord : String → SourceRecord
  destFields : List FieldMeta
  writeHost : WriteHost
  currentYear : ℤ

/-- The host-table calls `generate` can make, in order of appearance. -/
inductive HostCall where
  | getSourceTable
  | addTable (name : String)
  | getNewTable
  | createFields
  | readSourceData
  | writeData
deriving DecidableEq

/-- `generate` (source lines 44-110): precondition checks, then the
sequential pipeline; returns the host calls made and the outcome.  The
source's catch block rethrows `Error` values unchanged, so an error raised
at any step is the call's outcome. -/
def generate (h : Host) (sourceTableId : String) (month : ℤ) :
    List HostCall × Except String Unit :=
  if sourceTableId = "" then ([], .error srcIdEmptyMsg)
  else if month < 1 ∨ 12 < month then ([], .error monthRangeMsg)
  else
    let t1 : List HostCall := [.getSourceTable]
    if ¬ h.sourceTableExists then (t1, .error (tableNotFoundMsg sourceTableId))
    else
      let t2 := t1 ++ [.addTable (newTableName h.currentYear month)]
      match h.addTableResult with
      | none => (t2, .error addTableFailMsg)
      | some tid =>
        if tid = "" then (t2, .error addTableFailMsg)
        else
          let t3 := t2 ++ [.getNewTable]
          if ¬ h.newTableAccessible then (t3, .error (newTableAccessMsg tid))
          else
            let t4 := t3 ++ [.createFields]
            if ¬ h.createFieldsOk then (t4, .error createFieldsFailMsg)
            else
              let t5 := t4 ++ [.readSourceData]
              match getSourceData h.sourceFields h.recordIds h.readRecord month with
              | .error e => (t5, .error e)
              | .ok (groups, _) =>
                if groups.isEmpty then (t5, .error (noDataMsg month))
                else
                  let t6 := t5 ++ [.writeData]
                  match writeDataToNewTable h.destFields h.writeHost groups with
                  | .error e => (t6, .error e)
                  | .ok _ => (t6, .ok ())

/-- Modelled from the spec's words for claim C1: a record counts toward `k`
when its out-date read parses to a date in the requested month and its
category read yields a non-empty (truthy) value — with no requirement that
the out-date value itself be truthy. -/
def claimMatches (month : ℤ) (r : SourceRecord) : Bool :=
  (match r.outDate with
   | .err => false
   | .ok dv =>
     match parseDate dv with
     | none => false
     | some t => monthOfTimestamp t == month)
  &&
  (match r.category with
   | .err => false
   | .ok cv => !(jsFalsy cv))

/-- A record the aggregation loop actually accumulates: a present (truthy)
out-date read that parses into the requested month, and a truthy category
read. -/
def recordMatches (month : ℤ) (r : SourceRecord) : Bool :=
  match r.outDate with
  | .err => false
  | .ok dv =>
    if jsFalsy dv then false
    else
      match parseDate dv with
      | none => false
      | some t =>
        if monthOfTimestamp t ≠ month then false
        else
          match r.category with
          | .err => false
          | .ok cv => !(jsFalsy cv)

/-- Sum of the `count` fields over the grouped data. -/
def sumCounts (acc : List (String × GroupAcc)) : ℕ :=
  (acc.map (fun p => p.2.count)).sum

/-- A numeric field read that contributes nothing to the sums: throwing,
`null`, `undefined` or NaN. -/
def fieldValueMissing : FieldRead → Bool
  | .err => true
  | .ok .null => true
  | .ok .undefined => true
  | .ok .nan => true
  | _ => false

/-- All five numeric reads of a record are missing. -/
def allNumericsMissing (r : SourceRecord) : Bool :=
  [r.shares, r.preparationFee, r.rewardDeduction, r.cancelFee,
   r.urgentFee].all fieldValueMissing

lemma safeGetNumberValue_of_missing (fr : FieldRead)
    (h : fieldValueMissing fr = true) : safeGetNumberValue fr = 0 := by
  cases fr with
  | err => rfl
  | ok v => cases v <;> simp [fieldValueMissing] at h <;> rfl

lemma sumCounts_cons (p : String × GroupAcc) (rest : List (String × GroupAcc)) :
    sumCounts (p :: rest) = p.2.count + sumCounts rest := by
  simp [sumCounts]

lemma count_accumulate (g : GroupAcc) (r : SourceRecord) :
    (accumulate g r).count = g.count + 1 := rfl

lemma sumCounts_addToGroups (acc : List (String × GroupAcc)) (key : String)
    (r : SourceRecord) :
    sumCounts (addToGroups acc key r) = sumCounts acc + 1 := by
  induction acc with
  | nil => simp [addToGroups, sumCounts, count_accumulate, GroupAcc.zero]
  | cons p rest ih =>
    obtain ⟨k, g⟩ := p
    by_cases hk : k = key
    · simp [addToGroups, hk, sumCounts_cons, count_accumulate]
      omega
    · simp [addToGroups, hk, sumCounts_cons, ih]
      omega

lemma sumCounts_groupStep (m : ℤ) (acc : List (String × GroupAcc))
    (r : SourceRecord) :
    sumCounts (groupStep m acc r) =
      sumCounts acc + (if recordMatches m r then 1 else 0) := by
  unfold groupStep recordMatches
  cases r.outDate with
  | err => simp
  | ok dv =>
    by_cases hf : jsFalsy dv
    · simp [hf]
    · simp only [hf, Bool.false_eq_true, if_false]
      cases parseDate dv with
      | none => simp
      | some t =>
        by_cases hm : monthOfTimestamp t ≠ m
        · simp [hm]
        · simp only [hm, if_false]
          cases r.category with
          | err => simp
          | ok cv =>
            by_cases hc : jsFalsy cv
            · simp [hc]
            · simp [hc, sumCounts_addToGroups]

lemma sumCounts_foldl (m : ℤ) (rs : List SourceRecord) :
    ∀ acc, sumCounts (rs.foldl (groupStep m) acc) =
      sumCounts acc + rs.countP (recordMatches m) := by
  induction rs with
  | nil => intro acc; simp
  | cons r rest ih =>
    intro acc
    rw [List.foldl_cons, ih, sumCounts_groupStep, List.countP_cons]
    omega

lemma foldl_processRecord (m : ℤ) (rs : List SourceRecord) :
    ∀ g d, rs.foldl (processRecord m) (g, d) =
      (rs.foldl (groupStep m) g, d ++ (rs.map (recordDiags m)).flatten) := by
  induction rs with
  | nil => intro g d; simp
  | cons r rest ih =>
    intro g d
    rw [List.foldl_cons, List.foldl_cons]
    show rest.foldl (processRecord m) (groupStep m g r, d ++ recordDiags m r) = _
    rw [ih]
    simp

lemma aggregateRecords_eq (m : ℤ) (rs : List SourceRecord) :
    aggregateRecords m rs =
      (rs.foldl (groupStep m) [], (rs.map (recordDiags m)).flatten) := by
  rw [aggregateRecords, foldl_processRecord]
  simp

/-- C1 (amended): for every month and record list, the `count` values of the
grouped result sum to the number of records whose out-date read is present
(truthy), parses into the requested month, and whose category read is
non-empty; and a matched record with all five numeric reads missing still
contributes 1 to its group's count while leaving all sums unchanged. -/
theorem count_sum_matches (month : ℤ) (rs : List SourceRecord) :
    sumCounts (aggregateRecords month rs).1 = rs.countP (recordMatches month) ∧
    (∀ (g : GroupAcc) (r : SourceRecord), allNumericsMissing r = true →
      accumulate g r = { g with count := g.count + 1 }) := by
  constructor
  · rw [aggregateRecords_eq]
    simpa [sumCounts] using sumCounts_foldl month rs []
  · intro g r h
    simp only [allNumericsMissing, List.all_cons, List.all_nil,
      Bool.and_eq_true, Bool.and_true] at h
    obtain ⟨h1, h2, h3, h4, h5⟩ := h
    simp [accumulate, safeGetNumberValue_of_missing _ h1,
      safeGetNumberValue_of_missing _ h2, safeGetNumberValue_of_missing _ h3,
      safeGetNumberValue_of_missing _ h4, safeGetNumberValue_of_missing _ h5]

/-- The record refuting C1 as stated: its out-date cell holds the timestamp
0 (1970-01-01, month 1) and its category is the non-empty label "A", yet
the loop's falsiness check `if (!outDateValue) continue` skips it. -/
def c1Record : SourceRecord :=
  { id := "r1", outDate := .ok (.num 0), category := .ok (.str "A")
    shares := .ok .null, preparationFee := .ok .null
    rewardDeduction := .ok .null, cancelFee := .ok .null
    urgentFee := .ok .null }

/-- C1 (counterexample): on a one-record table whose out-date parses to a
date in month 1 and whose category is non-empty, the grouped counts sum to
0, not to the claimed k = 1: a zero timestamp is falsy and is skipped before
parsing. -/
theorem count_sum_claim_false :
    sumCounts (aggregateRecords 1 [c1Record]).1 = 0 ∧
    [c1Record].countP (claimMatches 1) = 1 := by
  constructor
  · have hf : jsFalsy (RawValue.num 0) = true := by decide
    rw [aggregateRecords_eq]
    simp [groupStep, c1Record, hf, sumCounts]
  · have hp : parseDate (RawValue.num 0) = some 0 := by
      simp only [parseDate]
      rw [if_pos (by norm_num)]
      simp
    have hc : claimMatches 1 c1Record = true := by
      simp [claimMatches, c1Record, hp]
      decide
    simp [List.countP_cons, hc]

/-- C3: the numeric normalizer is total and never yields NaN: a throwing
read, `null`, `undefined` and NaN all map to 0; a numeric value maps to
itself; a string maps to its numeric value, or to 0 when not convertible;
and it is applied uniformly to all five numeric fields of the accumulator,
whose sums therefore always remain (finite) rationals. -/
theorem safeGetNumberValue_contract :
    safeGetNumberValue (.ok .null) = 0 ∧
    safeGetNumberValue (.ok .undefined) = 0 ∧
    safeGetNumberValue (.ok .nan) = 0 ∧
    safeGetNumberValue .err = 0 ∧
    (∀ q : ℚ, safeGetNumberValue (.ok (.num q)) = q) ∧
    (∀ s : String, jsNumberOfString s = none →
      safeGetNumberValue (.ok (.str s)) = 0) ∧
    (∀ s : String, ∀ q : ℚ, jsNumberOfString s = some q →
      safeGetNumberValue (.ok (.str s)) = q) ∧
    (∀ (g : GroupAcc) (r : SourceRecord),
      (accumulate g r).shares = g.shares + safeGetNumberValue r.shares ∧
      (accumulate g r).preparationFee =
        g.preparationFee + safeGetNumberValue r.preparationFee ∧
      (accumulate g r).rewardDeduction =
        g.rewardDeduction + safeGetNumberValue r.rewardDeduction ∧
      (accumulate g r).cancelFee = g.cancelFee + safeGetNumberValue r.cancelFee ∧
      (accumulate g r).urgentFee = g.urgentFee + safeGetNumberValue r.urgentFee) := by
  refine ⟨rfl, rfl, rfl, rfl, fun q => rfl, ?_, ?_, ?_⟩
  · intro s h
    simp [safeGetNumberValue, jsNumber, h]
  · intro s q h
    simp [safeGetNumberValue, jsNumber, h]
  · intro g r
    exact ⟨rfl, rfl, rfl, rfl, rfl⟩

/-- Witness for C3 at concrete strings: a non-numeric string normalizes to
0 and a numeric string to its value. -/
theorem safeGetNumberValue_contract_witness :
    safeGetNumberValue (.ok (.str "abc")) = 0 ∧
    safeGetNumberValue (.ok (.str "7")) = 7 :=
  ⟨safeGetNumberValue_contract.2.2.2.2.2.1 "abc" (by decide),
   safeGetNumberValue_contract.2.2.2.2.2.2.1 "7" 7 (by decide)⟩

/-- A record all of whose reads yield `null` (an empty row). -/
def sampleRecord : SourceRecord :=
  { id := "r1", outDate := .ok .null, category := .ok .null
    shares := .ok .null, preparationFee := .ok .null
    rewardDeduction := .ok .null, cancelFee := .ok .null
    urgentFee := .ok .null }

/-- A source-table field listing carrying exactly the seven required display
names. -/
def stdSourceFields : List FieldMeta :=
  [{ id := "fs1", name := "产品类别" }, { id := "fs2", name := "申请出库日期" },
   { id := "fs3", name := "份数" }, { id := "fs4", name := "制备费" },
   { id := "fs5", name := "出库订单（多单）奖励扣减" },
   { id := "fs6", name := "制剂取消收取费用" },
   { id := "fs7", name := "制剂加急/非正常出库时间收取费用" }]

/-- A destination-table field listing carrying exactly the seven required
display names. -/
def stdTargetFields : List FieldMeta :=
  [{ id := "ft1", name := "项目" }, { id := "ft2", name := "人数" },
   { id := "ft3", name := "份数" }, { id := "ft4", name := "制备费" },
   { id := "ft5", name := "出库订单奖励扣减" },
   { id := "ft6", name := "制剂取消收取费用" },
   { id := "ft7", name := "制剂加急/非正常出库时间收取费用" }]

/-- A well-behaved host with one empty record. -/
def sampleHost : Host :=
  { sourceTableExists := true, addTableResult := some "tbl_new"
    newTableAccessible := true, createFieldsOk := true
    sourceFields := stdSourceFields, recordIds := ["r1"]
    readRecord := fun _ => sampleRecord, destFields := stdTargetFields
    writeHost := { bulkOk := true, rowOk := fun _ => true }
    currentYear := 2024 }

/-- C6: with an empty source-table id, or a month outside 1-12, `generate`
fails immediately with the corresponding descriptive error and makes no
host-table call at all. -/
theorem generate_precondition_errors (h : Host) (sid : String) (month : ℤ)
    (hbad : sid = "" ∨ month < 1 ∨ 12 < month) :
    (generate h sid month).1 = [] ∧
    ((generate h sid month).2 = .error srcIdEmptyMsg ∨
     (generate h sid month).2 = .error monthRangeMsg) := by
  rcases hbad with hs | hm
  · subst hs
    simp [generate]
  · by_cases hs : sid = ""
    · subst hs
      simp [generate]
    · rw [generate, if_neg hs, if_pos hm]
      simp

/-- Witness for C6: an empty source id is rejected without host calls. -/
theorem generate_precondition_errors_witness :
    (generate sampleHost "" 5).1 = [] ∧
    ((generate sampleHost "" 5).2 = .error srcIdEmptyMsg ∨
     (generate sampleHost "" 5).2 = .error monthRangeMsg) :=
  generate_precondition_errors sampleHost "" 5 (Or.inl rfl)

/-- C7: a record whose out-date read is present (truthy) but unparseable is
excluded from every group, a diagnostic is recorded for it, and the
aggregation still returns successfully (it never raises). -/
theorem unparseable_date_skipped (month : ℤ)
    (st : List (String × GroupAcc) × List String) (r : SourceRecord)
    (v : RawValue) (hv : r.outDate = .ok v) (hpres : jsFalsy v = false)
    (hparse : parseDate v = none) :
    processRecord month st r = (st.1, st.2 ++ [invalidDateDiag r.id]) ∧
    (∀ rs1 rs2 : List SourceRecord,
      (aggregateRecords month (rs1 ++ r :: rs2)).1 =
        (aggregateRecords month (rs1 ++ rs2)).1) ∧
    (∀ (fields : List FieldMeta) (ids : List String)
       (readFn : String → SourceRecord) (bs : List (String × String)),
      fields ≠ [] →
      resolveFields srcMissingPfx fields sourceRoleNames = .ok bs →
      ids ≠ [] →
      ∃ out, getSourceData fields ids readFn month = Except.ok out) := by
  have hg : ∀ acc, groupStep month acc r = acc := by
    intro acc
    simp [groupStep, hv, hpres, hparse]
  have hd : recordDiags month r = [invalidDateDiag r.id] := by
    simp [recordDiags, hv, hpres, hparse]
  refine ⟨?_, ?_, ?_⟩
  · show (groupStep month st.1 r, st.2 ++ recordDiags month r) = _
    rw [hg, hd]
  · intro rs1 rs2
    rw [aggregateRecords_eq, aggregateRecords_eq]
    simp only [List.foldl_append, List.foldl_cons, hg]
  · intro fields ids readFn bs hf hres hi
    have hf2 : fields.isEmpty = false := by
      cases fields with
      | nil => exact absurd rfl hf
      | cons a t => rfl
    have hi2 : ids.isEmpty = false := by
      cases ids with
      | nil => exact absurd rfl hi
      | cons a t => rfl
    exact ⟨aggregateRecords month (ids.map readFn),
      by simp [getSourceData, hf2, hi2, hres]⟩

/-- A record whose out-date cell holds a numeric value outside the
ECMAScript time range: `new Date` yields an invalid instant. -/
def badDateRecord : SourceRecord :=
  { id := "rx", outDate := .ok (.num 9000000000000000)
    category := .ok (.str "A"), shares := .ok .null
    preparationFee := .ok .null, rewardDeduction := .ok .null
    cancelFee := .ok .null, urgentFee := .ok .null }

/-- Witness for C7: the out-of-range timestamp is skipped with a
diagnostic. -/
theorem unparseable_date_skipped_witness :
    processRecord 3 ([], []) badDateRecord = ([], [invalidDateDiag "rx"]) := by
  have hparse : parseDate (RawValue.num 9000000000000000) = none := by
    simp only [parseDate]
    rw [if_neg (by norm_num)]
  exact (unparseable_date_skipped 3 ([], []) badDateRecord
    (RawValue.num 9000000000000000) rfl (by decide) hparse).1

lemma filter_map_fst (names : List String) (g : String → Option String)
    (q : Option String → Bool) :
    ((names.map (fun n => (n, g n))).filter (fun p => q p.2)).map Prod.fst =
      names.filter (fun n => q (g n)) := by
  induction names with
  | nil => rfl
  | cons n rest ih =>
    by_cases h : q (g n) <;> simp [h, ih]

lemma findFieldId_ne_empty (fields : List FieldMeta)
    (hids : ∀ f ∈ fields, f.id ≠ "") (n s : String)
    (h : findFieldId fields n = some s) : s ≠ "" := by
  rw [findFieldId, Option.map_eq_some'] at h
  obtain ⟨f, hf, hfs⟩ := h
  exact hfs ▸ hids f (List.mem_of_find?_eq_some hf)

lemma idFalsy_findFieldId (fields : List FieldMeta)
    (hids : ∀ f ∈ fields, f.id ≠ "") (n : String) :
    idFalsy (findFieldId fields n) = (findFieldId fields n).isNone := by
  cases h : findFieldId fields n with
  | none => rfl
  | some s =>
    have hs := findFieldId_ne_empty fields hids n s h
    simp [idFalsy, hs]

lemma findFieldId_first (n : String) :
    ∀ (pre : List FieldMeta) (f : FieldMeta) (post : List FieldMeta),
      f.name = n → (∀ g ∈ pre, g.name ≠ n) →
      findFieldId (pre ++ f :: post) n = some f.id := by
  intro pre
  induction pre with
  | nil =>
    intro f post hname _
    rw [List.nil_append, findFieldId, List.find?_cons_of_pos _ (by simp [hname])]
    rfl
  | cons g rest ih =>
    intro f post hname hpre
    have hgf : (g.name == n) = false := by
      simpa using hpre g (List.mem_cons_self g rest)
    rw [List.cons_append, findFieldId, List.find?_cons, hgf]
    exact ih f post hname (fun x hx => hpre x (List.mem_cons_of_mem g hx))

/-- C8: field resolution over a table's ordered field metadata: under
non-empty field ids, (i) if every required display name occurs, resolution
succeeds and binds every role to the id of the first field with that exact
name; (ii) otherwise it fails with a single error naming every display name
it could not locate; (iii) lookup returns the first match in listing
order. -/
theorem resolveFields_contract (pfx : String) (fields : List FieldMeta)
    (names : List String) (hids : ∀ f ∈ fields, f.id ≠ "") :
    ((∀ n ∈ names, ∃ f ∈ fields, f.name = n) →
      resolveFields pfx fields names =
        .ok (names.map (fun n => (n, (findFieldId fields n).getD "")))) ∧
    (names.filter (fun n => (findFieldId fields n).isNone) ≠ [] →
      resolveFields pfx fields names =
        .error (pfx ++ String.intercalate ", "
          (names.filter (fun n => (findFieldId fields n).isNone)))) ∧
    (∀ (n : String) (pre post : List FieldMeta) (f : FieldMeta),
      fields = pre ++ f :: post → f.name = n → (∀ g ∈ pre, g.name ≠ n) →
      findFieldId fields n = some f.id) := by
  have hmiss : ((names.map (fun n => (n, findFieldId fields n))).filter
      (fun p => idFalsy p.2)).map Prod.fst =
      names.filter (fun n => (findFieldId fields n).isNone) := by
    rw [filter_map_fst]
    exact List.filter_congr (fun n _ => idFalsy_findFieldId fields hids n)
  refine ⟨?_, ?_, ?_⟩
  · intro hall
    have hnil : names.filter (fun n => (findFieldId fields n).isNone) = [] := by
      rw [List.filter_eq_nil_iff]
      intro n hn
      obtain ⟨f, hf, hfn⟩ := hall n hn
      cases hfind : fields.find? (fun fd => fd.name == n) with
      | none =>
        rw [List.find?_eq_none] at hfind
        exact absurd (by simp [hfn]) (hfind f hf)
      | some fd => simp [findFieldId, hfind]
    simp only [resolveFields, hmiss, hnil, List.isEmpty_nil, if_true, List.map_map]
    rfl
  · intro hne
    have hfalse : (names.filter (fun n => (findFieldId fields n).isNone)).isEmpty = false := by
      cases hc : names.filter (fun n => (findFieldId fields n).isNone) with
      | nil => exact absurd hc hne
      | cons a t => rfl
    simp only [resolveFields, hmiss, hfalse, Bool.false_eq_true, if_false]
  · intro n pre post f heq hname hpre
    exact heq ▸ findFieldId_first n pre f post hname hpre

/-- A field listing with a duplicated display name, to exhibit first-match
resolution. -/
def dupFields : List FieldMeta :=
  [{ id := "fd1", name := "份数" }, { id := "fd2", name := "份数" }]

/-- Witness for C8: the standard source listing resolves fully, and a
duplicated display name resolves to the first field in listing order. -/
theorem resolveFields_contract_witness :
    resolveFields srcMissingPfx stdSourceFields sourceRoleNames =
      .ok (sourceRoleNames.map (fun n => (n, (findFieldId stdSourceFields n).getD ""))) ∧
    findFieldId dupFields "份数" = some "fd1" := by
  constructor
  · exact (resolveFields_contract srcMissingPfx stdSourceFields sourceRoleNames
      (by decide)).1 (by decide)
  · exact (resolveFields_contract "" dupFields ["份数"] (by decide)).2.2 "份数"
      [] [{ id := "fd2", name := "份数" }] { id := "fd1", name := "份数" }
      rfl rfl (by simp)

/-- The accumulator refuting C2's identical-rounding claim: a shares sum of
12.345 would round to 12.35. -/
def c2Group : GroupAcc :=
  { count := 1, shares := 2469 / 200, preparationFee := 0
    rewardDeduction := 0, cancelFee := 0, urgentFee := 0 }

/-- C2 (counterexample): on the bulk path the writer persists the raw shares
sum 12.345, which differs from the rounded value `round(12.345*100)/100 =
12.35`: the bulk path does not round, so rounding is not applied
identically on both paths. -/
theorem write_rounding_claim_false :
    writeRows { bulkOk := true, rowOk := fun _ => true } [("A", c2Group)] =
      .ok { outcomes := [.written "A" (bulkRowFields "A" c2Group)]
            usedBulk := true, partialWarning := false } ∧
    (bulkRowFields "A" c2Group).shares ≠ round2 c2Group.shares := by
  constructor
  · rw [writeRows, if_pos ⟨rfl, by decide⟩]
    rfl
  · show c2Group.shares ≠ round2 c2Group.shares
    simp only [c2Group, round2, jsRound]
    have h1 : (2469 / 200 : ℚ) * 100 + 1 / 2 = ((1235 : ℤ) : ℚ) := by norm_num
    rw [h1, Int.floor_intCast]
    norm_num

/-- C2 (amended): the per-row fallback path persists the five numeric sums
rounded as `round(value*100)/100` (round half up on the scaled value) and
the count unrounded, whereas the bulk path persists all raw unrounded sums;
the two paths do not round identically. -/
theorem write_rounding_amended (h : WriteHost) (groups : List (String × GroupAcc)) :
    (h.bulkOk = true → groups ≠ [] →
      writeRows h groups =
        .ok { outcomes := groups.map (fun p => .written p.1 (bulkRowFields p.1 p.2))
              usedBulk := true, partialWarning := false }) ∧
    (h.bulkOk = false → ∀ rep, writeRows h groups = .ok rep →
      rep.outcomes = groups.map (fun p =>
        if h.rowOk p.1 then RowOutcome.written p.1 (perRowFields p.1 p.2)
        else RowOutcome.failed p.1)) ∧
    (∀ (c : String) (d : GroupAcc),
      (perRowFields c d).shares = round2 d.shares ∧
      (perRowFields c d).preparationFee = round2 d.preparationFee ∧
      (perRowFields c d).rewardDeduction = round2 d.rewardDeduction ∧
      (perRowFields c d).cancelFee = round2 d.cancelFee ∧
      (perRowFields c d).urgentFee = round2 d.urgentFee ∧
      (perRowFields c d).personCount = d.count ∧
      (bulkRowFields c d).shares = d.shares ∧
      (bulkRowFields c d).preparationFee = d.preparationFee ∧
      (bulkRowFields c d).rewardDeduction = d.rewardDeduction ∧
      (bulkRowFields c d).cancelFee = d.cancelFee ∧
      (bulkRowFields c d).urgentFee = d.urgentFee ∧
      (bulkRowFields c d).personCount = d.count) ∧
    (∀ q : ℚ, round2 q = ((⌊q * 100 + 1 / 2⌋ : ℤ) : ℚ) / 100) := by
  refine ⟨?_, ?_, ?_, fun q => rfl⟩
  · intro hb hne
    rw [writeRows, if_pos ⟨hb, List.length_pos.mpr hne⟩]
  · intro hb rep hok
    rw [writeRows, if_neg (by simp [hb])] at hok
    simp only at hok
    split at hok
    · exact absurd hok (by simp)
    · rw [Except.ok.injEq] at hok
      rw [← hok]
  · intro c d
    exact ⟨rfl, rfl, rfl, rfl, rfl, rfl, rfl, rfl, rfl, rfl, rfl, rfl⟩

/-- A sample accumulator for the write-path witnesses. -/
def wGroup : GroupAcc :=
  { count := 2, shares := 3, preparationFee := 4, rewardDeduction := 5
    cancelFee := 6, urgentFee := 7 }

/-- A host whose bulk insert fails and whose per-row insert succeeds only
for category "A". -/
def wHost : WriteHost := { bulkOk := false, rowOk := fun c => c == "A" }

/-- Witness for C2 (amended): on a concrete two-group mapping the bulk path
persists raw rows and the failed-bulk host produces the per-row rounded
outcomes. -/
theorem write_rounding_amended_witness :
    writeRows { bulkOk := true, rowOk := fun _ => true } [("A", wGroup)] =
      .ok { outcomes := [.written "A" (bulkRowFields "A" wGroup)]
            usedBulk := true, partialWarning := false } ∧
    ({ outcomes := [.written "A" (perRowFields "A" wGroup), .failed "B"]
       usedBulk := false, partialWarning := true } : WriteReport).outcomes =
      [("A", wGroup), ("B", wGroup)].map (fun p =>
        if wHost.rowOk p.1 then RowOutcome.written p.1 (perRowFields p.1 p.2)
        else RowOutcome.failed p.1) :=
  ⟨(write_rounding_amended { bulkOk := true, rowOk := fun _ => true }
      [("A", wGroup)]).1 rfl (by simp),
   (write_rounding_amended wHost [("A", wGroup), ("B", wGroup)]).2.1 rfl
      _ rfl⟩

/-- One iteration of the per-row fallback loop: insert the group's row and
set its seven (rounded) values, or log the category as failed. -/
def perRowStep (h : WriteHost) (p : String × GroupAcc) : RowOutcome :=
  if h.rowOk p.1 then RowOutcome.written p.1 (perRowFields p.1 p.2)
  else RowOutcome.failed p.1

lemma countP_write_outcomes (h : WriteHost) (groups : List (String × GroupAcc)) :
    (groups.map (perRowStep h)).countP isWritten =
      groups.countP (fun p => h.rowOk p.1) := by
  induction groups with
  | nil => rfl
  | cons p rest ih =>
    by_cases hr : h.rowOk p.1 <;>
      simp [List.countP_cons, hr, ih, isWritten, perRowStep]

lemma outcomes_cats (h : WriteHost) (groups : List (String × GroupAcc)) :
    (groups.map (perRowStep h)).map outcomeCat = groups.map Prod.fst := by
  induction groups with
  | nil => rfl
  | cons p rest ih =>
    by_cases hr : h.rowOk p.1 <;> simp [hr, outcomeCat, ih, perRowStep]

lemma writeData_eq_writeRows (destFields : List FieldMeta) (h : WriteHost)
    (groups : List (String × GroupAcc)) (bs : List (String × String))
    (hne : destFields ≠ [])
    (hres : resolveFields tgtMissingPfx destFields targetRoleNames = .ok bs) :
    writeDataToNewTable destFields h groups = writeRows h groups := by
  have hne2 : destFields.isEmpty = false := by
    cases destFields with
    | nil => exact absurd rfl hne
    | cons a t => rfl
  simp [writeDataToNewTable, hne2, hres]

lemma writeRows_perRow (h : WriteHost) (groups : List (String × GroupAcc))
    (hcond : ¬ (h.bulkOk = true ∧ 0 < groups.length)) :
    writeRows h groups =
      (if (groups.map (perRowStep h)).countP isWritten = 0 then
        Except.error zeroWrittenMsg
      else
        Except.ok
          { outcomes := groups.map (perRowStep h)
            usedBulk := false
            partialWarning :=
              decide ((groups.map (perRowStep h)).countP isWritten <
                groups.length) }) := by
  rw [writeRows, if_neg hcond]
  rfl

/-- C4: with resolvable destination fields, a successful write covers every
group exactly once (each is written or individually logged, in input
order); if no row succeeds the write fails fatally; a partial success is
reported with a warning flag but still succeeds; and when the bulk path
fails the per-row fallback is the one used, continuing past per-row
failures. -/
theorem writer_coverage (destFields : List FieldMeta) (h : WriteHost)
    (groups : List (String × GroupAcc)) (bs : List (String × String))
    (hne : destFields ≠ [])
    (hres : resolveFields tgtMissingPfx destFields targetRoleNames = .ok bs) :
    (∀ rep, writeDataToNewTable destFields h groups = .ok rep →
      rep.outcomes.map outcomeCat = groups.map Prod.fst) ∧
    ((h.bulkOk = false ∨ groups = []) → (∀ p ∈ groups, h.rowOk p.1 = false) →
      writeDataToNewTable destFields h groups = .error zeroWrittenMsg) ∧
    (h.bulkOk = false → 0 < groups.countP (fun p => h.rowOk p.1) →
      groups.countP (fun p => h.rowOk p.1) < groups.length →
      ∃ rep, writeDataToNewTable destFields h groups = .ok rep ∧
        rep.partialWarning = true ∧ rep.usedBulk = false ∧
        rep.outcomes.map outcomeCat = groups.map Prod.fst) ∧
    (h.bulkOk = false → ∀ rep, writeDataToNewTable destFields h groups = .ok rep →
      rep.usedBulk = false) := by
  rw [writeData_eq_writeRows destFields h groups bs hne hres]
  have hcondOf : h.bulkOk = false → ¬ (h.bulkOk = true ∧ 0 < groups.length) := by
    intro hb hc
    rw [hb] at hc
    exact absurd hc.1 (by simp)
  refine ⟨?_, ?_, ?_, ?_⟩
  · intro rep hok
    by_cases hcond : h.bulkOk = true ∧ 0 < groups.length
    · rw [writeRows, if_pos hcond, Except.ok.injEq] at hok
      rw [← hok]
      simp [outcomeCat, List.map_map]
    · rw [writeRows_perRow h groups hcond] at hok
      split at hok
      · exact absurd hok (by simp)
      · rw [Except.ok.injEq] at hok
        rw [← hok]
        exact outcomes_cats h groups
  · intro hb hall
    have hcond : ¬ (h.bulkOk = true ∧ 0 < groups.length) := by
      rcases hb with hb | hb
      · exact hcondOf hb
      · subst hb
        intro hc
        exact absurd hc.2 (by simp)
    rw [writeRows_perRow h groups hcond, if_pos]
    rw [countP_write_outcomes, List.countP_eq_zero]
    intro p hp
    simp [hall p hp]
  · intro hb h1 h2
    rw [writeRows_perRow h groups (hcondOf hb),
      if_neg (by rw [countP_write_outcomes]; omega)]
    refine ⟨_, rfl, ?_, rfl, outcomes_cats h groups⟩
    simp only [countP_write_outcomes]
    exact decide_eq_true h2
  · intro hb rep hok
    rw [writeRows_perRow h groups (hcondOf hb)] at hok
    split at hok
    · exact absurd hok (by simp)
    · rw [Except.ok.injEq] at hok
      rw [← hok]

/-- Witness for C4: with the standard destination listing, a failed-bulk
host that succeeds only on category "A" yields a partial success over two
groups. -/
theorem writer_coverage_witness :
    ∃ rep, writeDataToNewTable stdTargetFields wHost
        [("A", wGroup), ("B", wGroup)] = .ok rep ∧
      rep.partialWarning = true ∧ rep.usedBulk = false ∧
      rep.outcomes.map outcomeCat =
        ([("A", wGroup), ("B", wGroup)].map Prod.fst) :=
  (writer_coverage stdTargetFields wHost [("A", wGroup), ("B", wGroup)]
    (targetRoleNames.map (fun n => (n, (findFieldId stdTargetFields n).getD "")))
    (by decide)
    ((resolveFields_contract tgtMissingPfx stdTargetFields targetRoleNames
      (by decide)).1 (by decide))).2.2.1 rfl (by decide) (by decide)

/-- C5: when aggregation yields zero groups, `generate` fails with the
descriptive no-data error and the write step is never invoked. -/
theorem no_data_month_fatal (h : Host) (sid : String) (month : ℤ) (tid : String)
    (ds : List String)
    (hsid : sid ≠ "") (hm1 : 1 ≤ month) (hm2 : month ≤ 12)
    (hsrc : h.sourceTableExists = true)
    (hadd : h.addTableResult = some tid) (htid : tid ≠ "")
    (hacc : h.newTableAccessible = true) (hcf : h.createFieldsOk = true)
    (hagg : getSourceData h.sourceFields h.recordIds h.readRecord month =
      .ok ([], ds)) :
    generate h sid month =
      ([.getSourceTable, .addTable (newTableName h.currentYear month),
        .getNewTable, .createFields, .readSourceData],
       .error (noDataMsg month)) ∧
    HostCall.writeData ∉ (generate h sid month).1 := by
  have hm : ¬ (month < 1 ∨ 12 < month) := by omega
  have hgen : generate h sid month =
      ([.getSourceTable, .addTable (newTableName h.currentYear month),
        .getNewTable, .createFields, .readSourceData],
       .error (noDataMsg month)) := by
    rw [generate, if_neg hsid, if_neg hm]
    simp [hsrc, hadd, htid, hacc, hcf, hagg]
  refine ⟨hgen, ?_⟩
  rw [hgen]
  simp

/-- Witness for C5: a host whose single record has no out-date yields zero
groups and the no-data failure, with no write call in the trace. -/
theorem no_data_month_fatal_witness :
    generate sampleHost "tbl_src" 5 =
      ([.getSourceTable, .addTable (newTableName sampleHost.currentYear 5),
        .getNewTable, .createFields, .readSourceData],
       .error (noDataMsg 5)) ∧
    HostCall.writeData ∉ (generate sampleHost "tbl_src" 5).1 :=
  no_data_month_fatal sampleHost "tbl_src" 5 "tbl_new" []
    (by decide) (by decide) (by decide) rfl rfl (by decide) rfl rfl rfl

lemma string_len_ne (m : ℤ) : noRecordsMsg ≠ noDataMsg m := by
  intro hcontra
  have hlen := congrArg String.length hcontra
  simp only [noRecordsMsg, noDataMsg, String.length_append] at hlen
  have h1 : ("源表中没有找到任何记录" : String).length = 11 := by decide
  have h2 : ("未找到" : String).length = 3 := by decide
  have h3 : ("月的数据，请确认原表中存在该月份的记录" : String).length = 19 := by
    decide
  omega

/-- C10: with resolvable source fields but an empty record-identifier list,
the run fails with the descriptive no-records error, before any per-record
month filtering (the outcome is independent of the record reader and of the
requested month), and this error is distinct from the no-data-for-month
error. -/
theorem empty_source_records_fatal (h : Host) (sid : String) (month : ℤ)
    (tid : String) (bs : List (String × String))
    (hsid : sid ≠ "") (hm1 : 1 ≤ month) (hm2 : month ≤ 12)
    (hsrc : h.sourceTableExists = true)
    (hadd : h.addTableResult = some tid) (htid : tid ≠ "")
    (hacc : h.newTableAccessible = true) (hcf : h.createFieldsOk = true)
    (hfe : h.sourceFields.isEmpty = false)
    (hres : resolveFields srcMissingPfx h.sourceFields sourceRoleNames = .ok bs)
    (hempty : h.recordIds = []) :
    getSourceData h.sourceFields h.recordIds h.readRecord month =
      .error noRecordsMsg ∧
    (∀ (f g : String → SourceRecord) (m1 m2 : ℤ),
      getSourceData h.sourceFields [] f m1 =
        getSourceData h.sourceFields [] g m2) ∧
    generate h sid month =
      ([.getSourceTable, .addTable (newTableName h.currentYear month),
        .getNewTable, .createFields, .readSourceData],
       .error noRecordsMsg) ∧
    noRecordsMsg ≠ noDataMsg month := by
  have hm : ¬ (month < 1 ∨ 12 < month) := by omega
  have hgs : getSourceData h.sourceFields h.recordIds h.readRecord month =
      .error noRecordsMsg := by
    rw [hempty]
    simp [getSourceData, hfe, hres]
  refine ⟨hgs, ?_, ?_, string_len_ne month⟩
  · intro f g m1 m2
    simp [getSourceData, hfe, hres]
  · rw [generate, if_neg hsid, if_neg hm]
    simp [hsrc, hadd, htid, hacc, hcf, hgs]

/-- A host like `sampleHost` but with an empty source table. -/
def emptyHost : Host :=
  { sampleHost with recordIds := [] }

/-- Witness for C10: the empty-record-list host fails with the no-records
error. -/
theorem empty_source_records_fatal_witness :
    getSourceData emptyHost.sourceFields emptyHost.recordIds
      emptyHost.readRecord 5 = .error noRecordsMsg ∧
    generate emptyHost "tbl_src" 5 =
      ([.getSourceTable, .addTable (newTableName emptyHost.currentYear 5),
        .getNewTable, .createFields, .readSourceData],
       .error noRecordsMsg) :=
  have hall := empty_source_records_fatal emptyHost "tbl_src" 5 "tbl_new"
    (sourceRoleNames.map (fun n => (n, (findFieldId stdSourceFields n).getD "")))
    (by decide) (by decide) (by decide) rfl rfl (by decide) rfl rfl rfl
    ((resolveFields_contract srcMissingPfx stdSourceFields sourceRoleNames
      (by decide)).1 (by decide)) rfl
  ⟨hall.1, hall.2.2.1⟩

/-- C9: the month filter compares only the calendar month of the parsed
out-date, never its year: two records whose timestamps lie in the requested
month of two different years and that share a category are accumulated into
one single group, with count 2, in one run — while the created table is
named from the current year and the requested month only. -/
theorem month_filter_ignores_year (month t1 t2 : ℤ) (c : String)
    (r1 r2 : SourceRecord) (hne : c ≠ "")
    (hr1 : r1.outDate = .ok (.num (t1 : ℚ))) (hc1 : r1.category = .ok (.str c))
    (hr2 : r2.outDate = .ok (.num (t2 : ℚ))) (hc2 : r2.category = .ok (.str c))
    (hz1 : t1 ≠ 0) (hz2 : t2 ≠ 0)
    (hb1 : -8640000000000000 ≤ t1 ∧ t1 ≤ 8640000000000000)
    (hb2 : -8640000000000000 ≤ t2 ∧ t2 ≤ 8640000000000000)
    (hm1 : monthOfTimestamp t1 = month) (hm2 : monthOfTimestamp t2 = month)
    (hy : yearOfTimestamp t1 ≠ yearOfTimestamp t2) :
    (aggregateRecords month [r1, r2]).1 =
      [(c, accumulate (accumulate GroupAcc.zero r1) r2)] ∧
    sumCounts (aggregateRecords month [r1, r2]).1 = 2 ∧
    (∀ y : ℤ, newTableName y month =
      toString y ++ "年" ++ toString month ++ "月支付细胞工程制剂制备费") := by
  have hp : ∀ t : ℤ, -8640000000000000 ≤ t → t ≤ 8640000000000000 →
      parseDate (.num (t : ℚ)) = some t := by
    intro t hta htb
    simp only [parseDate]
    rw [if_pos]
    · simp [Rat.num_intCast, Rat.den_intCast]
    · constructor
      · exact_mod_cast hta
      · exact_mod_cast htb
  have hf : ∀ t : ℤ, t ≠ 0 → jsFalsy (.num (t : ℚ)) = false := by
    intro t ht
    simp [jsFalsy, ht]
  have hcf : jsFalsy (.str c) = false := by
    simp [jsFalsy, hne]
  have hstep1 : groupStep month [] r1 = [(c, accumulate GroupAcc.zero r1)] := by
    simp [groupStep, hr1, hc1, hf t1 hz1, hp t1 hb1.1 hb1.2, hcf, hm1,
      jsString, addToGroups]
  have hstep2 : groupStep month [(c, accumulate GroupAcc.zero r1)] r2 =
      [(c, accumulate (accumulate GroupAcc.zero r1) r2)] := by
    simp [groupStep, hr2, hc2, hf t2 hz2, hp t2 hb2.1 hb2.2, hcf, hm2,
      jsString, addToGroups]
  have hgroups : (aggregateRecords month [r1, r2]).1 =
      [(c, accumulate (accumulate GroupAcc.zero r1) r2)] := by
    rw [aggregateRecords_eq]
    show ([r1, r2].foldl (groupStep month) []) = _
    rw [List.foldl_cons, List.foldl_cons, List.foldl_nil, hstep1, hstep2]
  refine ⟨hgroups, ?_, fun y => rfl⟩
  rw [hgroups]
  simp [sumCounts, count_accumulate, GroupAcc.zero]

/-- A February 2023 record with category "A". -/
def feb2023Record : SourceRecord :=
  { id := "r1", outDate := .ok (.num ((1676419200000 : ℤ) : ℚ))
    category := .ok (.str "A"), shares := .ok .null
    preparationFee := .ok .null, rewardDeduction := .ok .null
    cancelFee := .ok .null, urgentFee := .ok .null }

/-- A February 2024 record with category "A". -/
def feb2024Record : SourceRecord :=
  { id := "r2", outDate := .ok (.num ((1707955200000 : ℤ) : ℚ))
    category := .ok (.str "A"), shares := .ok .null
    preparationFee := .ok .null, rewardDeduction := .ok .null
    cancelFee := .ok .null, urgentFee := .ok .null }

/-- Witness for C9: 2023-02-15 and 2024-02-15 land in the same group of a
run for month 2, giving it count 2. -/
theorem month_filter_ignores_year_witness :
    (aggregateRecords 2 [feb2023Record, feb2024Record]).1 =
      [("A", accumulate (accumulate GroupAcc.zero feb2023Record) feb2024Record)] ∧
    sumCounts (aggregateRecords 2 [feb2023Record, feb2024Record]).1 = 2 ∧
    (∀ y : ℤ, newTableName y 2 =
      toString y ++ "年" ++ toString 2 ++ "月支付细胞工程制剂制备费") :=
  month_filter_ignores_year 2 1676419200000 1707955200000 "A"
    feb2023Record feb2024Record (by decide) rfl rfl rfl rfl
    (by decide) (by decide) (by decide) (by decide)
    (by decide) (by decide) (by decide)

/-- Witness for C1 (amended): on a concrete one-record table the counts sum
to the number of matching records, and a record with all numeric reads
missing only increments the count. -/
theorem count_sum_matches_witness :
    sumCounts (aggregateRecords 2 [feb2023Record]).1 =
      [feb2023Record].countP (recordMatches 2) ∧
    accumulate GroupAcc.zero feb2023Record =
      { GroupAcc.zero with count := GroupAcc.zero.count + 1 } :=
  ⟨(count_sum_matches 2 [feb2023Record]).1,
   (count_sum_matches 2 [feb2023Record]).2 GroupAcc.zero feb2023Record
     (by decide)⟩

example : monthOfTimestamp 0 = 1 := by decide
example : civilFromDays 19403 = (2023, 2, 15) := by decide
example : jsNumberOfString "abc" = none := by decide
example : jsNumberOfString "7" = some 7 := by decide

end MonthlyReport
